import Mathlib

/-!
Verification development for the openSwap-UI development server
(`server.py`): a thin wrapper around Python's
`http.server.SimpleHTTPRequestHandler` that adds CORS/cache headers,
special-cases `OPTIONS`, customises logging, and serves files from the
directory containing the script.

The Python source is shallowly embedded: the handler's buffered-header
discipline becomes explicit list passing, the process's control flow in
`main` becomes a function of an event environment (which exceptions and
interrupts occur, and when), CPython's `int(str)` parsing and the posix
path functions used (directly or through inheritance) become computable
Lean functions on `List Char`.
-/

namespace OpenSwapServer

/-! ## Response and header machinery

`http.server` buffers headers added by `send_header` and flushes them when
`end_headers` is called.  `server.py` overrides `end_headers` (lines 19-24)
to append its four fixed headers before delegating to the base class's
flush, so every finalized response carries them. -/

/-- Runtime facts the base handler interpolates into responses: the
`Server` header value and the `Date` header value. -/
structure HttpCtx where
  serverVersion : String
  httpDate : String

/-- A finalized HTTP response: status code, header block in send order,
and body. -/
structure Response where
  status : Nat
  headers : List (String × String)
  body : String
deriving DecidableEq

/-- `BaseHTTPRequestHandler.send_header`: append one header to the
buffered header block. -/
def send_header (buffered : List (String × String)) (k v : String) :
    List (String × String) :=
  buffered ++ [(k, v)]

/-- `CORSHTTPRequestHandler.end_headers` (server.py lines 19-24): four
`send_header` calls for the CORS/cache headers, then the base class's
flush of the buffered block (modelled as returning the final block). -/
def end_headers (buffered : List (String × String)) :
    List (String × String) :=
  send_header
    (send_header
      (send_header
        (send_header buffered "Access-Control-Allow-Origin" "*")
        "Access-Control-Allow-Methods" "GET, POST, OPTIONS")
      "Access-Control-Allow-Headers" "Content-Type")
    "Cache-Control" "no-store, no-cache, must-revalidate"

/-- `BaseHTTPRequestHandler.send_response`: emits the status line and
buffers the `Server` and `Date` headers. -/
def send_response (ctx : HttpCtx) : List (String × String) :=
  [("Server", ctx.serverVersion), ("Date", ctx.httpDate)]

/-- Finalizing a response: every response-producing path in the handler
ends with a call to (the overridden) `end_headers` on its buffered
headers. -/
def finalize (status : Nat) (buffered : List (String × String))
    (body : String) : Response :=
  ⟨status, end_headers buffered, body⟩

/-- `CORSHTTPRequestHandler.do_OPTIONS` (server.py lines 26-28):
`send_response(200)` then `end_headers()`; no body is written. -/
def do_OPTIONS (ctx : HttpCtx) : Response :=
  finalize 200 (send_response ctx) ""

/-- `BaseHTTPRequestHandler.send_error` (inherited): `send_response(code)`,
`Content-Type` and `Connection: close` headers, `end_headers`, then an
HTML error page body. -/
def send_error (ctx : HttpCtx) (code : Nat) (page : String) : Response :=
  finalize code
    (send_header
      (send_header (send_response ctx) "Content-Type"
        "text/html;charset=utf-8")
      "Connection" "close")
    page

/-- Error page body the inherited handler generates for 404. -/
def errorPage404 : String := "Error response: 404 File not found"

/-- Error page body the inherited handler generates for an unsupported
method. -/
def errorPage501 : String := "Error response: 501 Unsupported method"

/-! ## Posix path functions

The path functions `server.py` uses, directly (`os.path.dirname`,
`os.path.abspath` at line 13) or through the inherited
`SimpleHTTPRequestHandler.translate_path`, embedded on `List Char`
following CPython's `posixpath` module. -/

/-- `posixpath.isabs`: a path is absolute when it starts with `/`. -/
def isabs (p : List Char) : Bool := p.take 1 = ['/']

/-- Python `str.split(sep)` for a one-character separator: split on every
occurrence, keeping empty pieces; splitting the empty string gives one
empty piece. -/
def splitSep (sep : Char) : List Char → List (List Char)
  | [] => [[]]
  | c :: rest =>
    if c = sep then [] :: splitSep sep rest
    else
      match splitSep sep rest with
      | [] => [[c]]
      | h :: t => (c :: h) :: t

/-- Python `sep.join(pieces)` for a one-character separator. -/
def joinSep (sep : Char) : List (List Char) → List Char
  | [] => []
  | [w] => w
  | w :: rest => w ++ sep :: joinSep sep rest

/-- `posixpath.join` restricted to two arguments: an absolute second
component replaces the first; otherwise the components are joined with a
`/` unless the first is empty or already ends in `/`. -/
def join (a b : List Char) : List Char :=
  if isabs b then b
  else if a = [] ∨ a.getLast? = some '/' then a ++ b
  else a ++ '/' :: b

/-- The number of leading slashes `posixpath.normpath` preserves: two
slashes followed by a non-slash keep both (POSIX allows `//` a special
meaning), any other leading slash run keeps one. -/
def initialSlashes (p : List Char) : Nat :=
  if p.take 2 = ['/', '/'] ∧ p.take 3 ≠ ['/', '/', '/'] then 2
  else if p.take 1 = ['/'] then 1
  else 0

/-- One step of `posixpath.normpath`'s component loop: drop empty and
`.` components, append ordinary components, and on `..` either keep it
(relative path with nothing to pop, or already popping) or pop the last
kept component. -/
def normStep (slashes : Nat) (acc : List (List Char))
    (comp : List Char) : List (List Char) :=
  if comp = [] ∨ comp = ['.'] then acc
  else if comp ≠ ['.', '.'] ∨ (slashes = 0 ∧ acc = []) ∨
      acc.getLast? = some ['.', '.'] then
    acc ++ [comp]
  else acc.dropLast

/-- `posixpath.normpath`: collapse repeated separators and resolve `.`
and `..` components textually, preserving one or two leading slashes. -/
def normpath (p : List Char) : List Char :=
  if p = [] then ['.']
  else
    let out := List.replicate (initialSlashes p) '/' ++
      joinSep '/' ((splitSep '/' p).foldl (normStep (initialSlashes p)) [])
    if out = [] then ['.'] else out

/-- The `p[:i]` slice of `posixpath.dirname`, where `i` is one past the
index of the last slash (0 when there is none). -/
def dirnameHead (p : List Char) : List Char :=
  p.take (p.length - (p.reverse.takeWhile (fun c => c ≠ '/')).length)

/-- `str.rstrip('/')`: drop trailing slashes. -/
def rstripSlash (l : List Char) : List Char :=
  (l.reverse.dropWhile (fun c => c = '/')).reverse

/-- `posixpath.dirname`: everything up to and including the last `/`,
with trailing slashes stripped unless the head is all slashes. -/
def dirname (p : List Char) : List Char :=
  if dirnameHead p ≠ [] ∧ ¬ (dirnameHead p).all (fun c => c = '/') then
    rstripSlash (dirnameHead p)
  else dirnameHead p

/-- `os.path.abspath`: a relative path is joined onto the current working
directory, and the result is normalized.  `cwd` stands for `os.getcwd()`,
which always returns an absolute path. -/
def abspath (cwd p : List Char) : List Char :=
  if isabs p then normpath p else normpath (join cwd p)

/-- ASCII whitespace stripped by Python's `str.rstrip()` / `str.strip()`
(the unicode extras are irrelevant to the paths and numbers involved). -/
def isPyWs (c : Char) : Bool :=
  c = ' ' ∨ c = '\t' ∨ c = '\n' ∨ c = '\x0d' ∨ c = '\x0b' ∨ c = '\x0c'

/-- Python `str.rstrip()`: drop trailing whitespace. -/
def pyRstrip (p : List Char) : List Char :=
  (p.reverse.dropWhile isPyWs).reverse

/-- `s.split(c, 1)[0]`: the part of the string before the first
occurrence of `c` (the whole string when `c` does not occur). -/
def takeUntil (c : Char) (l : List Char) : List Char :=
  l.takeWhile (fun x => x ≠ c)

/-- Value of an ASCII hex digit. -/
def hexVal (c : Char) : Option Nat :=
  if '0' ≤ c ∧ c ≤ '9' then some (c.toNat - 48)
  else if 'a' ≤ c ∧ c ≤ 'f' then some (c.toNat - 87)
  else if 'A' ≤ c ∧ c ≤ 'F' then some (c.toNat - 55)
  else none

/-- `urllib.parse.unquote`, modelled byte-wise: a `%` followed by two hex
digits becomes the encoded code unit, anything else is kept verbatim
(multi-byte UTF-8 sequences are decoded unit by unit; this is faithful
for ASCII, which is all that reaches the path logic below). -/
def unquote : List Char → List Char
  | [] => []
  | '%' :: a :: b :: rest =>
    match hexVal a, hexVal b with
    | some x, some y => Char.ofNat (16 * x + y) :: unquote rest
    | _, _ => '%' :: unquote (a :: b :: rest)
  | c :: rest => c :: unquote rest

/-- The components `SimpleHTTPRequestHandler.translate_path` keeps from a
request path: strip query and fragment, percent-decode, normalize, split
on `/`, drop empty components (`filter(None, words)`), then skip any
component with a nonempty `dirname` or equal to `os.curdir` (`.`) or
`os.pardir` (`..`). -/
def requestWords (p : List Char) : List (List Char) :=
  let p2 := takeUntil '#' (takeUntil '?' p)
  let words := (splitSep '/' (normpath (unquote p2))).filter
    (fun w => decide (w ≠ []))
  words.filter (fun w => decide (dirname w = [] ∧ w ≠ ['.'] ∧ w ≠ ['.', '.']))

/-- `SimpleHTTPRequestHandler.translate_path` (inherited by
`CORSHTTPRequestHandler`): join the kept request components onto the
handler's directory, re-adding a trailing slash when the request path
(after stripping query, fragment and trailing whitespace) ended in one. -/
def translate_path (root p : List Char) : List Char :=
  if (pyRstrip (takeUntil '#' (takeUntil '?' p))).getLast? = some '/' then
    (requestWords p).foldl join root ++ ['/']
  else (requestWords p).foldl join root

/-! ## The serving root (server.py lines 12-17)

`DIRECTORY = os.path.dirname(os.path.abspath(__file__))` is computed once
at import time; `CORSHTTPRequestHandler.__init__` passes
`directory=DIRECTORY` to the inherited handler, so every request is
translated against it. -/

/-- `DIRECTORY` (server.py line 13): directory containing the server
program, as an absolute path; `cwd` is the process working directory at
startup and `file` is `__file__`. -/
def DIRECTORY (cwd file : List Char) : List Char :=
  dirname (abspath cwd file)

/-- How the operating system resolves the path handed to `open`: an
absolute path is used as-is, a relative one is resolved against the
process's working directory at the time of the call. -/
def osOpenPath (reqCwd p : List Char) : List Char :=
  if isabs p then p else join reqCwd p

/-- The file a request for `reqPath` is served from: `translate_path`
against `DIRECTORY` (fixed at startup from `startCwd` and `file`),
resolved by the OS against the working directory `reqCwd` current when
the request is handled. -/
def servedFile (startCwd file reqCwd reqPath : List Char) : List Char :=
  osOpenPath reqCwd (translate_path (DIRECTORY startCwd file) reqPath)

/-! ## Request dispatch

The inherited handler dispatches on the request method: `do_GET` /
`do_HEAD` serve the translated path (404 through `send_error` when it
does not resolve to readable content), any other method without a `do_*`
method gets a 501 through `send_error`; `server.py` adds `do_OPTIONS`.
The filesystem is abstracted as a partial map from translated paths to
served content. -/

/-- `SimpleHTTPRequestHandler.do_GET`: translate the path, stream the
content with its inferred type and length, or answer 404. -/
def do_GET (ctx : HttpCtx) (fs : List Char → Option String)
    (ctype : List Char → String) (root p : List Char) : Response :=
  match fs (translate_path root p) with
  | some content =>
    finalize 200
      (send_header
        (send_header (send_response ctx) "Content-Type"
          (ctype (translate_path root p)))
        "Content-Length" (toString content.length))
      content
  | none => send_error ctx 404 errorPage404

/-- `SimpleHTTPRequestHandler.do_HEAD`: same headers as `do_GET`, no
body. -/
def do_HEAD (ctx : HttpCtx) (fs : List Char → Option String)
    (ctype : List Char → String) (root p : List Char) : Response :=
  match fs (translate_path root p) with
  | some content =>
    finalize 200
      (send_header
        (send_header (send_response ctx) "Content-Type"
          (ctype (translate_path root p)))
        "Content-Length" (toString content.length))
      ""
  | none => send_error ctx 404 errorPage404

/-- Method dispatch of `BaseHTTPRequestHandler.handle_one_request` for
`CORSHTTPRequestHandler`: `OPTIONS` is handled by the override in
server.py lines 26-28, `GET`/`HEAD` by the inherited file serving, and
anything else by the inherited 501 error path. -/
def handle (ctx : HttpCtx) (fs : List Char → Option String)
    (ctype : List Char → String) (root : List Char) (method : String)
    (p : List Char) : Response :=
  if method = "OPTIONS" then do_OPTIONS ctx
  else if method = "GET" then do_GET ctx fs ctype root p
  else if method = "HEAD" then do_HEAD ctx fs ctype root p
  else send_error ctx 501 errorPage501

/-! ## Logging (server.py lines 30-31) -/

/-- `CORSHTTPRequestHandler.log_message`: the line printed to standard
output for each handled request — the client address display string in
dim grey, a dash, then the first formatted argument (the request-line
summary). -/
def log_message (address_string arg0 : String) : String :=
  "\x1b[90m" ++ address_string ++ ("\x1b[0m - " ++ arg0)

/-! ## CPython `int(str)` parsing

`main` parses the port with `int(sys.argv[1])` (line 34).  CPython
accepts optional surrounding whitespace, an optional sign, and a nonempty
digit run with single underscores strictly between digits (unicode digit
variants are irrelevant here). -/

/-- Digit run continuation: after a first digit, digits may follow
directly or after a single underscore that must be followed by a digit. -/
def digitsCore : Nat → List Char → Option Nat
  | acc, [] => some acc
  | acc, '_' :: c :: rest =>
    if c.isDigit then digitsCore (acc * 10 + (c.toNat - 48)) rest else none
  | acc, c :: rest =>
    if c.isDigit then digitsCore (acc * 10 + (c.toNat - 48)) rest else none

/-- A nonempty digit run (with embedded underscores) and its value. -/
def natPart : List Char → Option Nat
  | [] => none
  | c :: rest =>
    if c.isDigit then digitsCore (c.toNat - 48) rest else none

/-- Python `str.strip()` (ASCII whitespace). -/
def pyStrip (p : List Char) : List Char :=
  pyRstrip (p.dropWhile isPyWs)

/-- CPython `int(s)` for a decimal string: `some n` on success, `none`
when CPython raises `ValueError`. -/
def pyInt (s : String) : Option Int :=
  match pyStrip s.data with
  | '+' :: rest => (natPart rest).map (fun n => (n : Int))
  | '-' :: rest => (natPart rest).map (fun n => -(n : Int))
  | rest => (natPart rest).map (fun n => (n : Int))

/-! ## The process model of `main` (server.py lines 33-57)

`main` parses the optional port argument, binds a `TCPServer` in a `with`
block, prints the banner, then runs `serve_forever()` inside
`try/except KeyboardInterrupt`.  The nondeterministic events — an
interrupt delivered before the `try` block, a bind failure, and what
happens inside `serve_forever` — are an explicit environment.  An
uncaught Python exception terminates the interpreter with a nonzero
status. -/

/-- Python exceptions relevant to `main`. -/
inductive PyExc
  | valueError
  | keyboardInterrupt
  | osError
  | other
deriving DecidableEq

/-- Where an interrupt can be delivered before `serve_forever` is
entered: during the `int(...)` argument parse, during the `TCPServer`
bind, or while the banner is printed. -/
inductive PrePhase
  | duringParse
  | duringBind
  | duringBanner
deriving DecidableEq

/-- Event environment for one run of `main`. -/
structure Env where
  interruptBefore : Option PrePhase
  bindFails : Bool
  serveRaises : Option PyExc
deriving DecidableEq

/-- How the process terminated. -/
inductive Outcome
  | exited (code : Nat)
  | uncaught (e : PyExc)
  | runsForever
deriving DecidableEq

/-- Whether the termination is fatal with a nonzero status: an explicit
nonzero `sys.exit`, or any uncaught exception (CPython then exits with a
nonzero status). -/
def Outcome.fatal : Outcome → Bool
  | .exited c => decide (c ≠ 0)
  | .uncaught _ => true
  | .runsForever => false

/-- Observable result of a run of `main`: termination, the port the
listener was successfully bound to (if any), the lines printed to
standard output, and whether the `with` block closed the listener. -/
structure RunResult where
  outcome : Outcome
  bound : Option Int
  stdout : List String
  listenerClosed : Bool
deriving DecidableEq

/-- `PORT` (server.py line 12). -/
def PORT : Int := 8080

/-- `port = int(sys.argv[1]) if len(sys.argv) > 1 else PORT`
(server.py line 34): `.error a` stands for the `ValueError` that
`int(a)` raises. -/
def portArg (argv : List String) : Except String Int :=
  match argv with
  | _ :: a :: _ =>
    match pyInt a with
    | some n => .ok n
    | none => .error a
  | _ => .ok PORT

/-- Whether the port argument parse succeeds. -/
def portOk (argv : List String) : Bool :=
  match portArg argv with
  | .ok _ => true
  | .error _ => false

/-- The startup banner (server.py lines 37-52), reduced to its
contractual content: the resolved port (box-art decoration elided). -/
def banner (port : Int) : String :=
  "Server running at http://localhost:" ++ toString port

/-- The shutdown message (server.py line 56). -/
def stopMessage : String :=
  "\n\x1b[38;2;0;217;255m→\x1b[0m Server stopped"

/-- One run of `main` (server.py lines 33-57) under an event
environment.  An interrupt before the `try` block and a `ValueError`
from `int(...)` propagate uncaught; a bind failure raises `OSError`
uncaught; only `KeyboardInterrupt` raised inside `serve_forever()` is
caught, printing the stop message and exiting 0.  The `with` block
closes the listener whenever control leaves it. -/
def main (argv : List String) (env : Env) : RunResult :=
  if env.interruptBefore = some .duringParse then
    ⟨.uncaught .keyboardInterrupt, none, [], false⟩
  else
    match portArg argv with
    | .error _ => ⟨.uncaught .valueError, none, [], false⟩
    | .ok port =>
      if env.interruptBefore = some .duringBind then
        ⟨.uncaught .keyboardInterrupt, none, [], false⟩
      else if env.bindFails then ⟨.uncaught .osError, none, [], false⟩
      else if env.interruptBefore = some .duringBanner then
        ⟨.uncaught .keyboardInterrupt, some port, [], true⟩
      else
        match env.serveRaises with
        | none => ⟨.runsForever, some port, [banner port], false⟩
        | some .keyboardInterrupt =>
          ⟨.exited 0, some port, [banner port, stopMessage], true⟩
        | some e => ⟨.uncaught e, some port, [banner port], true⟩

/-! ## Helper lemmas -/

/-- Every finalized response carries the four headers added by the
overridden `end_headers`, whatever was buffered before. -/
theorem finalize_has_cors (status : Nat)
    (buffered : List (String × String)) (body : String) :
    ("Access-Control-Allow-Origin", "*") ∈
        (finalize status buffered body).headers ∧
    ("Access-Control-Allow-Methods", "GET, POST, OPTIONS") ∈
        (finalize status buffered body).headers ∧
    ("Access-Control-Allow-Headers", "Content-Type") ∈
        (finalize status buffered body).headers ∧
    ("Cache-Control", "no-store, no-cache, must-revalidate") ∈
        (finalize status buffered body).headers := by
  simp [finalize, end_headers, send_header]

/-- Every response `handle` produces is a finalized response: each
dispatch branch ends in `end_headers`. -/
theorem handle_eq_finalize (ctx : HttpCtx) (fs : List Char → Option String)
    (ctype : List Char → String) (root : List Char) (method : String)
    (p : List Char) :
    ∃ status buffered body,
      handle ctx fs ctype root method p = finalize status buffered body := by
  unfold handle
  split_ifs
  · exact ⟨_, _, _, rfl⟩
  · unfold do_GET
    rcases fs (translate_path root p) with _ | c
    · exact ⟨_, _, _, rfl⟩
    · exact ⟨_, _, _, rfl⟩
  · unfold do_HEAD
    rcases fs (translate_path root p) with _ | c
    · exact ⟨_, _, _, rfl⟩
    · exact ⟨_, _, _, rfl⟩
  · exact ⟨_, _, _, rfl⟩

/-- `splitSep` never returns an empty list of pieces. -/
theorem splitSep_ne_nil (sep : Char) (l : List Char) :
    splitSep sep l ≠ [] := by
  induction l with
  | nil => simp [splitSep]
  | cons c rest ih =>
    simp only [splitSep]
    split
    · simp
    · rcases hr : splitSep sep rest with _ | ⟨h, t⟩
      · exact absurd hr ih
      · simp

/-- No piece produced by `splitSep` contains the separator. -/
theorem splitSep_not_mem (sep : Char) (l : List Char) :
    ∀ w ∈ splitSep sep l, sep ∉ w := by
  induction l with
  | nil =>
    intro w hw
    simp [splitSep] at hw
    simp [hw]
  | cons c rest ih =>
    intro w hw
    simp only [splitSep] at hw
    split at hw
    · rcases List.mem_cons.mp hw with rfl | hw'
      · simp
      · exact ih w hw'
    · rcases hr : splitSep sep rest with _ | ⟨h, t⟩
      · exact absurd hr (splitSep_ne_nil sep rest)
      · rw [hr] at hw
        rcases List.mem_cons.mp hw with rfl | hw'
        · intro hmem
          rcases List.mem_cons.mp hmem with rfl | hmem'
          · simp_all
          · exact ih h (hr ▸ List.mem_cons_self h t) hmem'
        · exact ih w (hr ▸ List.mem_cons_of_mem h hw')

/-- Joining a slash-free nonempty component onto a base path only ever
appends to the base. -/
theorem join_append_of_simple (a w : List Char) (hne : w ≠ [])
    (hns : '/' ∉ w) : ∃ x, join a w = a ++ x := by
  rcases w with _ | ⟨c, w'⟩
  · exact absurd rfl hne
  · have hc : c ≠ '/' := fun hc => hns (hc ▸ List.mem_cons_self c w')
    have habs : isabs (c :: w') = false := by
      simp [isabs, hc]
    unfold join
    rw [habs]
    simp only [Bool.false_eq_true, if_false]
    split
    · exact ⟨c :: w', rfl⟩
    · exact ⟨'/' :: c :: w', rfl⟩

/-- Folding `join` over slash-free nonempty components only ever appends
to the base path. -/
theorem foldl_join_append (ws : List (List Char)) :
    ∀ root, (∀ w ∈ ws, w ≠ [] ∧ '/' ∉ w) →
      ∃ t, ws.foldl join root = root ++ t := by
  induction ws with
  | nil => exact fun root _ => ⟨[], (List.append_nil root).symm⟩
  | cons w ws ih =>
    intro root h
    obtain ⟨hne, hns⟩ := h w (List.mem_cons_self w ws)
    obtain ⟨x, hx⟩ := join_append_of_simple root w hne hns
    obtain ⟨t, ht⟩ := ih (root ++ x)
      (fun v hv => h v (List.mem_cons_of_mem w hv))
    exact ⟨x ++ t, by rw [List.foldl_cons, hx, ht, List.append_assoc]⟩

/-- Every component kept by `translate_path` is a plain name: nonempty,
slash-free, and neither `.` nor `..`. -/
theorem requestWords_simple (p : List Char) :
    ∀ w ∈ requestWords p,
      w ≠ [] ∧ '/' ∉ w ∧ w ≠ ['.'] ∧ w ≠ ['.', '.'] := by
  intro w hw
  unfold requestWords at hw
  simp only [List.mem_filter, decide_eq_true_eq] at hw
  obtain ⟨⟨hmem, hne⟩, _, hdot, hdots⟩ := hw
  exact ⟨hne, splitSep_not_mem '/' _ w hmem, hdot, hdots⟩

/-- A path starting like an absolute one stays absolute under
appending. -/
theorem isabs_append (a x : List Char) (h : isabs a = true) :
    isabs (a ++ x) = true := by
  rcases a with _ | ⟨c, a'⟩
  · simp [isabs] at h
  · simp only [isabs, List.take_succ_cons, List.take_zero] at h ⊢
    simpa using h

/-- `translate_path` only ever appends to the handler directory. -/
theorem translate_path_append (root p : List Char) :
    ∃ t, translate_path root p = root ++ t := by
  obtain ⟨t, ht⟩ := foldl_join_append (requestWords p) root
    (fun w hw => ⟨(requestWords_simple p w hw).1,
      (requestWords_simple p w hw).2.1⟩)
  unfold translate_path
  split
  · exact ⟨t ++ ['/'], by rw [ht, List.append_assoc]⟩
  · exact ⟨t, ht⟩

/-- `translate_path` of an absolute directory is absolute. -/
theorem translate_path_isabs (root p : List Char)
    (h : isabs root = true) :
    isabs (translate_path root p) = true := by
  obtain ⟨t, ht⟩ := translate_path_append root p
  rw [ht]
  exact isabs_append root t h

/-- `initialSlashes` of a path starting with `/` is at least one. -/
theorem initialSlashes_pos (p : List Char) (h : p.take 1 = ['/']) :
    1 ≤ initialSlashes p := by
  unfold initialSlashes
  by_cases h1 : p.take 2 = ['/', '/'] ∧ p.take 3 ≠ ['/', '/', '/']
  · rw [if_pos h1]
    omega
  · rw [if_neg h1, if_pos h]

/-- `normpath` preserves absoluteness. -/
theorem normpath_isabs (p : List Char) (h : isabs p = true) :
    isabs (normpath p) = true := by
  have hp : p.take 1 = ['/'] := by simpa [isabs] using h
  have hne : p ≠ [] := by rintro rfl; simp at hp
  have h1 := initialSlashes_pos p hp
  unfold normpath
  rw [if_neg hne]
  obtain ⟨k, hk⟩ : ∃ k, initialSlashes p = k + 1 :=
    ⟨initialSlashes p - 1, by omega⟩
  simp only [hk, List.replicate_succ, List.cons_append]
  rw [if_neg (by simp)]
  simp [isabs]

/-- `join` preserves absoluteness of the base. -/
theorem join_isabs (a b : List Char) (h : isabs a = true) :
    isabs (join a b) = true := by
  unfold join
  split_ifs with h1 h2
  · exact h1
  · exact isabs_append a b h
  · exact isabs_append a ('/' :: b) h

/-- `abspath` of anything against an absolute working directory is
absolute. -/
theorem abspath_isabs (cwd p : List Char) (h : isabs cwd = true) :
    isabs (abspath cwd p) = true := by
  unfold abspath
  split_ifs with h1
  · exact normpath_isabs p h1
  · exact normpath_isabs (join cwd p) (join_isabs cwd p h)

/-- If some element of `l` falsifies `q`, `dropWhile q` keeps
something. -/
theorem dropWhile_ne_nil_of_mem (q : Char → Bool) (l : List Char)
    (x : Char) (hx : x ∈ l) (hqx : q x = false) :
    l.dropWhile q ≠ [] := by
  intro hnil
  have := List.dropWhile_eq_nil_iff.mp hnil x hx
  rw [hqx] at this
  exact Bool.false_ne_true this

/-- If some element of `l` falsifies `q`, `takeWhile q` is a proper
front of `l`. -/
theorem length_takeWhile_lt_of_mem (q : Char → Bool) (l : List Char)
    (x : Char) (hx : x ∈ l) (hqx : q x = false) :
    (l.takeWhile q).length < l.length := by
  rcases Nat.lt_or_ge (l.takeWhile q).length l.length with hlt | hge
  · exact hlt
  · exfalso
    have hle := (List.takeWhile_prefix (l := l) q).length_le
    have heq := (List.takeWhile_prefix (l := l) q).eq_of_length
      (le_antisymm hle hge)
    have hall := List.takeWhile_eq_self_iff.mp heq x hx
    rw [hqx] at hall
    exact Bool.false_ne_true hall

/-- For an absolute path the `dirname` head slice is nonempty and starts
with the leading slash. -/
theorem dirnameHead_abs (p' : List Char) :
    ∃ j, dirnameHead ('/' :: p') = '/' :: p'.take j := by
  unfold dirnameHead
  have hmem : '/' ∈ ('/' :: p').reverse := by simp
  have hq : (fun c => decide (c ≠ '/')) '/' = false := by simp
  have hlt := length_takeWhile_lt_of_mem (fun c => decide (c ≠ '/'))
    ('/' :: p').reverse '/' hmem hq
  rw [List.length_reverse] at hlt
  obtain ⟨j, hj⟩ : ∃ j, ('/' :: p').length -
      ((('/' :: p').reverse.takeWhile (fun c => decide (c ≠ '/'))).length)
      = j + 1 := by
    refine ⟨('/' :: p').length -
      ((('/' :: p').reverse.takeWhile
        (fun c => decide (c ≠ '/'))).length) - 1, ?_⟩
    omega
  rw [hj, List.take_succ_cons]
  exact ⟨j, rfl⟩

/-- Stripping trailing slashes from an absolute path that is not all
slashes leaves an absolute path. -/
theorem rstripSlash_isabs (l : List Char) (habs : isabs l = true)
    (hnall : ¬ l.all (fun c => c = '/') = true) :
    isabs (rstripSlash l) = true := by
  obtain ⟨l', rfl⟩ : ∃ l', l = '/' :: l' := by
    rcases l with _ | ⟨c, l''⟩
    · simp [isabs] at habs
    · simp only [isabs, List.take_succ_cons, List.take_zero,
        List.cons.injEq, and_true] at habs
      exact ⟨l'', by rw [decide_eq_true_eq.mp habs]⟩
  obtain ⟨x, hxmem, hx⟩ : ∃ x ∈ '/' :: l', ¬ x = '/' := by
    by_contra hall
    push_neg at hall
    exact hnall (List.all_eq_true.mpr (fun x hx => decide_eq_true (hall x hx)))
  have hxrev : x ∈ ('/' :: l').reverse := List.mem_reverse.mpr hxmem
  have hqx : (fun c => decide (c = '/')) x = false := by
    simp [hx]
  have hdnil := dropWhile_ne_nil_of_mem (fun c => decide (c = '/'))
    ('/' :: l').reverse x hxrev hqx
  obtain ⟨s, hs⟩ := List.dropWhile_suffix
    (l := ('/' :: l').reverse) (fun c => decide (c = '/'))
  unfold rstripSlash
  set d := ('/' :: l').reverse.dropWhile (fun c => decide (c = '/')) with hd
  have hhead : d.reverse ++ s.reverse = '/' :: l' := by
    have : (s ++ d).reverse = (('/' :: l').reverse).reverse := by rw [hs]
    rwa [List.reverse_append, List.reverse_reverse] at this
  rcases hrev : d.reverse with _ | ⟨a, r'⟩
  · exact absurd (by simpa using congrArg List.reverse hrev) hdnil
  · rw [hrev] at hhead
    simp only [List.cons_append, List.cons.injEq] at hhead
    simp [isabs, hrev, hhead.1]

/-- `dirname` preserves absoluteness. -/
theorem dirname_isabs (p : List Char) (h : isabs p = true) :
    isabs (dirname p) = true := by
  obtain ⟨p', rfl⟩ : ∃ p', p = '/' :: p' := by
    rcases p with _ | ⟨c, p''⟩
    · simp [isabs] at h
    · simp only [isabs, List.take_succ_cons, List.take_zero,
        List.cons.injEq, and_true] at h
      exact ⟨p'', by rw [decide_eq_true_eq.mp h]⟩
  obtain ⟨j, hj⟩ := dirnameHead_abs p'
  have hhabs : isabs (dirnameHead ('/' :: p')) = true := by
    simp [hj, isabs]
  unfold dirname
  split_ifs with hcond
  · exact rstripSlash_isabs _ hhabs hcond.2
  · exact hhabs

/-! ## Claims -/

/-- C1: every HTTP response the server produces — success, error (e.g.
404), and OPTIONS preflight alike — carries the headers
`Access-Control-Allow-Origin: *`,
`Access-Control-Allow-Methods: GET, POST, OPTIONS`,
`Access-Control-Allow-Headers: Content-Type` and
`Cache-Control: no-store, no-cache, must-revalidate`, because every
header-finalization path goes through the overridden `end_headers`. -/
theorem c1_cors_headers_on_every_response (ctx : HttpCtx)
    (fs : List Char → Option String) (ctype : List Char → String)
    (root : List Char) (method : String) (p : List Char) (status : Nat)
    (buffered : List (String × String)) (body : String) :
    (("Access-Control-Allow-Origin", "*") ∈
        (handle ctx fs ctype root method p).headers ∧
      ("Access-Control-Allow-Methods", "GET, POST, OPTIONS") ∈
        (handle ctx fs ctype root method p).headers ∧
      ("Access-Control-Allow-Headers", "Content-Type") ∈
        (handle ctx fs ctype root method p).headers ∧
      ("Cache-Control", "no-store, no-cache, must-revalidate") ∈
        (handle ctx fs ctype root method p).headers) ∧
    (("Access-Control-Allow-Origin", "*") ∈
        (finalize status buffered body).headers ∧
      ("Access-Control-Allow-Methods", "GET, POST, OPTIONS") ∈
        (finalize status buffered body).headers ∧
      ("Access-Control-Allow-Headers", "Content-Type") ∈
        (finalize status buffered body).headers ∧
      ("Cache-Control", "no-store, no-cache, must-revalidate") ∈
        (finalize status buffered body).headers) := by
  refine ⟨?_, finalize_has_cors status buffered body⟩
  obtain ⟨s, b, bo, h⟩ := handle_eq_finalize ctx fs ctype root method p
  rw [h]
  exact finalize_has_cors s b bo

/-- C2: for every request path (existing or not), an OPTIONS request
short-circuits file serving and returns status 200 with an empty body,
still carrying the four CORS/cache headers. -/
theorem c2_options_short_circuit (ctx : HttpCtx)
    (fs : List Char → Option String) (ctype : List Char → String)
    (root p : List Char) :
    handle ctx fs ctype root "OPTIONS" p = do_OPTIONS ctx ∧
    (handle ctx fs ctype root "OPTIONS" p).status = 200 ∧
    (handle ctx fs ctype root "OPTIONS" p).body = "" ∧
    ("Access-Control-Allow-Origin", "*") ∈
      (handle ctx fs ctype root "OPTIONS" p).headers ∧
    ("Access-Control-Allow-Methods", "GET, POST, OPTIONS") ∈
      (handle ctx fs ctype root "OPTIONS" p).headers ∧
    ("Access-Control-Allow-Headers", "Content-Type") ∈
      (handle ctx fs ctype root "OPTIONS" p).headers ∧
    ("Cache-Control", "no-store, no-cache, must-revalidate") ∈
      (handle ctx fs ctype root "OPTIONS" p).headers := by
  have h : handle ctx fs ctype root "OPTIONS" p = do_OPTIONS ctx := by
    simp [handle]
  refine ⟨h, ?_⟩
  rw [h]
  exact ⟨rfl, rfl, finalize_has_cors 200 (send_response ctx) ""⟩

/-- C8: the log line written for a handled request consists of the
client's address display string followed (after a separator) by the
first formatted argument of the access-log call. -/
theorem c8_log_line_contains_address_then_request
    (address_string arg0 : String) :
    ∃ u v, log_message address_string arg0 =
      u ++ address_string ++ (v ++ arg0) :=
  ⟨"\x1b[90m", "\x1b[0m - ", rfl⟩

/-- C3: with no command-line argument the server binds port 8080; with a
first argument that parses as an integer it binds exactly that port. -/
theorem c3_port_default_and_override (prog a : String) (rest : List String)
    (env : Env) (n : Int) (hInt : env.interruptBefore = none)
    (hBind : env.bindFails = false) (ha : pyInt a = some n) :
    (main [prog] env).bound = some 8080 ∧
    (main (prog :: a :: rest) env).bound = some n := by
  rcases env with ⟨ib, bf, sr⟩
  simp only at hInt hBind
  subst hInt hBind
  constructor
  · rcases sr with _ | e
    · simp [main, portArg, PORT]
    · cases e <;> simp [main, portArg, PORT]
  · rcases sr with _ | e
    · simp [main, portArg, ha]
    · cases e <;> simp [main, portArg, ha]

/-- C3 witness: omitting the argument binds 8080, supplying "9090" binds
9090, in the quiet environment. -/
theorem c3_port_default_and_override_witness :
    (main ["server.py"] ⟨none, false, none⟩).bound = some 8080 ∧
    (main ["server.py", "9090"] ⟨none, false, none⟩).bound = some 9090 :=
  c3_port_default_and_override "server.py" "9090" [] ⟨none, false, none⟩
    9090 rfl rfl (by decide)

/-- C4: a first command-line argument that is not a valid integer makes
the process fail fatally with a propagated parsing error — no listener is
bound, rather than silently defaulting to port 8080. -/
theorem c4_invalid_port_is_fatal (prog a : String) (rest : List String)
    (env : Env) (ha : pyInt a = none)
    (hInt : env.interruptBefore = none) :
    (main (prog :: a :: rest) env).outcome = .uncaught .valueError ∧
    (main (prog :: a :: rest) env).outcome.fatal = true ∧
    (main (prog :: a :: rest) env).bound = none := by
  rcases env with ⟨ib, bf, sr⟩
  simp only at hInt
  subst hInt
  simp [main, portArg, ha, Outcome.fatal]

/-- C4 witness: argument "abc" fails fatally without binding. -/
theorem c4_invalid_port_is_fatal_witness :
    (main ["server.py", "abc"] ⟨none, false, none⟩).outcome =
        .uncaught .valueError ∧
    (main ["server.py", "abc"] ⟨none, false, none⟩).outcome.fatal = true ∧
    (main ["server.py", "abc"] ⟨none, false, none⟩).bound = none :=
  c4_invalid_port_is_fatal "server.py" "abc" [] ⟨none, false, none⟩
    (by decide) rfl

/-- C6: a KeyboardInterrupt while `serve_forever` is running makes the
process exit with status 0, close the listener (the `with` block), and
print a line containing "Server stopped". -/
theorem c6_interrupt_clean_shutdown (argv : List String) (env : Env)
    (p : Int) (hport : portArg argv = .ok p)
    (hInt : env.interruptBefore = none) (hBind : env.bindFails = false)
    (hServe : env.serveRaises = some .keyboardInterrupt) :
    (main argv env).outcome = .exited 0 ∧
    (main argv env).listenerClosed = true ∧
    stopMessage ∈ (main argv env).stdout ∧
    ∃ u, stopMessage = u ++ "Server stopped" := by
  rcases env with ⟨ib, bf, sr⟩
  simp only at hInt hBind hServe
  subst hInt hBind hServe
  refine ⟨?_, ?_, ?_, ⟨"\n\x1b[38;2;0;217;255m→\x1b[0m ", by decide⟩⟩ <;>
    simp [main, hport]

/-- C6 witness: the default invocation, interrupted during serving. -/
theorem c6_interrupt_clean_shutdown_witness :
    (main ["server.py"] ⟨none, false, some .keyboardInterrupt⟩).outcome =
        .exited 0 ∧
    (main ["server.py"]
        ⟨none, false, some .keyboardInterrupt⟩).listenerClosed = true ∧
    stopMessage ∈
      (main ["server.py"] ⟨none, false, some .keyboardInterrupt⟩).stdout ∧
    ∃ u, stopMessage = u ++ "Server stopped" :=
  c6_interrupt_clean_shutdown ["server.py"]
    ⟨none, false, some .keyboardInterrupt⟩ 8080 rfl rfl rfl rfl

/-- C9: port parsing is exactly CPython `int` parsing — `"0"`, `"-1"`
and `" 8080 "` are accepted with their integer values (no positivity
check at the parsing step), and the argument is rejected exactly when
`int` parsing rejects it. -/
theorem c9_port_parsing_is_python_int (prog a : String)
    (rest : List String) (n : Int) :
    pyInt "0" = some 0 ∧ pyInt "-1" = some (-1) ∧
    pyInt " 8080 " = some 8080 ∧
    portArg (prog :: "0" :: rest) = .ok 0 ∧
    portArg (prog :: "-1" :: rest) = .ok (-1) ∧
    portArg (prog :: " 8080 " :: rest) = .ok 8080 ∧
    (portArg (prog :: a :: rest) = .ok n ↔ pyInt a = some n) ∧
    (portArg (prog :: a :: rest) = .error a ↔ pyInt a = none) := by
  have h0 : pyInt "0" = some 0 := by decide
  have h1 : pyInt "-1" = some (-1) := by decide
  have h8 : pyInt " 8080 " = some 8080 := by decide
  refine ⟨h0, h1, h8, by simp [portArg, h0], by simp [portArg, h1],
    by simp [portArg, h8], ?_, ?_⟩
  · rcases h : pyInt a with _ | m <;> simp [portArg, h]
  · rcases h : pyInt a with _ | m <;> simp [portArg, h]

/-- C10: the process exits 0 exactly when a KeyboardInterrupt arrives in
`serve_forever` after a successful parse and bind; it keeps running
exactly when nothing at all happens; and every other event — an
interrupt before `serve_forever`, a bad argument, a bind failure, or a
non-KeyboardInterrupt exception in `serve_forever` — propagates uncaught
and terminates with a nonzero status. -/
theorem c10_only_serve_interrupt_is_caught (argv : List String)
    (env : Env) :
    ((main argv env).outcome = .exited 0 ↔
      portOk argv = true ∧ env.interruptBefore = none ∧
      env.bindFails = false ∧
      env.serveRaises = some .keyboardInterrupt) ∧
    ((main argv env).outcome = .runsForever ↔
      portOk argv = true ∧ env.interruptBefore = none ∧
      env.bindFails = false ∧ env.serveRaises = none) ∧
    ((main argv env).outcome.fatal = true ↔
      ¬(portOk argv = true ∧ env.interruptBefore = none ∧
          env.bindFails = false ∧
          env.serveRaises = some .keyboardInterrupt) ∧
      ¬(portOk argv = true ∧ env.interruptBefore = none ∧
          env.bindFails = false ∧ env.serveRaises = none)) := by
  rcases env with ⟨ib, bf, sr⟩
  rcases h : portArg argv with a | p
  · rcases ib with _ | pre
    · simp [main, portOk, h, Outcome.fatal]
    · cases pre <;> simp [main, portOk, h, Outcome.fatal]
  · rcases ib with _ | pre
    · cases bf
      · rcases sr with _ | e
        · simp [main, portOk, h, Outcome.fatal]
        · cases e <;> simp [main, portOk, h, Outcome.fatal]
      · simp [main, portOk, h, Outcome.fatal]
    · cases pre <;> cases bf <;> simp [main, portOk, h, Outcome.fatal]

/-- C5: the serving root is the absolute path of the directory
containing the server program, fixed at startup, and every request
resolves against it — the working directory current when a request is
handled plays no part. -/
theorem c5_serving_root_fixed_and_absolute
    (startCwd file reqPath reqCwd reqCwd' : List Char)
    (h : isabs startCwd = true) :
    isabs (DIRECTORY startCwd file) = true ∧
    servedFile startCwd file reqCwd reqPath =
      servedFile startCwd file reqCwd' reqPath ∧
    servedFile startCwd file reqCwd reqPath =
      translate_path (DIRECTORY startCwd file) reqPath := by
  have hdir : isabs (DIRECTORY startCwd file) = true :=
    dirname_isabs _ (abspath_isabs startCwd file h)
  have htp : isabs (translate_path (DIRECTORY startCwd file) reqPath)
      = true := translate_path_isabs _ reqPath hdir
  refine ⟨hdir, ?_, ?_⟩ <;> simp [servedFile, osOpenPath, htp]

/-- C5 witness: with the startup working directory `/home/u` and the
program at `/srv/app/server.py`, the served file for `/../x` is the same
whether the request-time working directory is `/tmp` or `/var`, and the
serving root is absolute. -/
theorem c5_serving_root_fixed_and_absolute_witness :
    isabs (DIRECTORY "/home/u".data "/srv/app/server.py".data) = true ∧
    servedFile "/home/u".data "/srv/app/server.py".data "/tmp".data
        "/../x".data =
      servedFile "/home/u".data "/srv/app/server.py".data "/var".data
        "/../x".data ∧
    servedFile "/home/u".data "/srv/app/server.py".data "/tmp".data
        "/../x".data =
      translate_path (DIRECTORY "/home/u".data "/srv/app/server.py".data)
        "/../x".data :=
  c5_serving_root_fixed_and_absolute "/home/u".data
    "/srv/app/server.py".data "/../x".data "/tmp".data "/var".data
    (by decide)

/-- C7: for every serving root and every request path — including
path-traversal inputs like `/../../etc/passwd` — the translated path is
the root extended by components each of which is a plain name (nonempty,
slash-free, neither `.` nor `..`): the resolved file never lies outside
the serving root. -/
theorem c7_translate_path_stays_under_root (root p : List Char) :
    (∀ w ∈ requestWords p,
      w ≠ [] ∧ '/' ∉ w ∧ w ≠ ['.'] ∧ w ≠ ['.', '.']) ∧
    (∃ t, translate_path root p = root ++ t) ∧
    (translate_path root p = (requestWords p).foldl join root ∨
      translate_path root p =
        (requestWords p).foldl join root ++ ['/']) := by
  refine ⟨requestWords_simple p, translate_path_append root p, ?_⟩
  unfold translate_path
  split
  · exact Or.inr rfl
  · exact Or.inl rfl

end OpenSwapServer
